import Mathlib

/-!
Verification of the batch geodata import pipeline of the CO2 Storage Atlas
repository (the `ProductionDataImporter` class).

The JavaScript source is shallowly embedded:

* JS values (the geometries, coordinate arrays and property bags flowing
  through the importer) are modelled by the inductive `JVal`; JS numbers by
  `JNum` (a finite rational, NaN, or a signed infinity).
* JS code that can throw a `TypeError` (indexing `null`/`undefined`,
  calling a missing method) is modelled in the `Except Unit` monad; a
  `try { .. } catch` is an explicit `match` on the `Except` result.
* The two candidate proj4 forward transformations (`tryTransform`, which
  catches any exception of the external proj4 library and returns `null`
  for that candidate) are modelled by an arbitrary parameter
  `tt : String -> JVal -> JVal`: the importer only observes its result
  value, which is `null` precisely when proj4 threw.

Every definition is translated from the source file of the repository
(`ProductionDataImporter`), except for the small models of the external
`@turf/turf` library functions (`turf.bbox`, `turf.simplify`), which are
marked `Modelled from the spec:` in their doc comments.
-/

/-- A JavaScript number: a finite value (modelled as a rational), NaN, or a
signed infinity. -/
inductive JNum where
  | fin (q : Rat)
  | nan
  | inf
  | ninf
deriving DecidableEq, Repr

/-- JS `a <= b` (false whenever either side is NaN). -/
def JNum.jle : JNum → JNum → Bool
  | .nan, _ => false
  | _, .nan => false
  | .ninf, _ => true
  | _, .ninf => false
  | _, .inf => true
  | .inf, _ => false
  | .fin a, .fin b => a ≤ b

/-- Is this number finite (JS `isFinite`, argument already a number)? -/
def JNum.finite : JNum → Bool
  | .fin _ => true
  | _ => false

mutual
/-- A JavaScript value, as seen by the import pipeline. -/
inductive JVal where
  | null
  | undefined
  | bool (b : Bool)
  | num (n : JNum)
  | str (s : String)
  | arr (xs : JList)
  | obj (fs : JFields)

/-- The elements of a JS array value. -/
inductive JList where
  | nil
  | cons (hd : JVal) (tl : JList)

/-- The own properties of a JS object value, in insertion order. -/
inductive JFields where
  | nil
  | cons (k : String) (v : JVal) (tl : JFields)
end

deriving instance DecidableEq for JVal, JList, JFields

deriving instance DecidableEq for Except

/-- JS truthiness. -/
def truthy : JVal → Bool
  | .null => false
  | .undefined => false
  | .bool b => b
  | .num (.fin q) => q != 0
  | .num .nan => false
  | .num _ => true
  | .str s => s != ""
  | .arr _ => true
  | .obj _ => true

/-- Property lookup in an object field list; `undef` when absent. -/
def lookupField : JFields → String → JVal
  | .nil, _ => .undefined
  | .cons k v tl, key => if k = key then v else lookupField tl key

/-- JS property access `v.key` on values on which it cannot throw; returns
`undef` for every non-object.  Only used at places where the source has
already guarded against `null`/`undefined` receivers. -/
def getField : JVal → String → JVal
  | .obj fs, key => lookupField fs key
  | _, _ => .undefined

/-- JS property access `v.key` including the `TypeError` thrown on a
`null`/`undefined` receiver. -/
def jsGetField : JVal → String → Except Unit JVal
  | .null, _ => .error ()
  | .undefined, _ => .error ()
  | .obj fs, key => .ok (lookupField fs key)
  | _, _ => .ok .undefined

/-- Is the value a JS array (`Array.isArray`)? -/
def isArrV : JVal → Bool
  | .arr _ => true
  | _ => false

/-- JS indexing `v[0]`, throwing on `null`/`undefined`.  Arrays yield the
first element (or `undefined`), strings the first character, objects their
`"0"` property, other primitives `undefined`. -/
def jsIndex0 : JVal → Except Unit JVal
  | .null => .error ()
  | .undefined => .error ()
  | .arr .nil => .ok .undefined
  | .arr (.cons x _) => .ok x
  | .obj fs => .ok (lookupField fs "0")
  | .str s => .ok (if s = "" then .undefined else .str (s.take 1))
  | _ => .ok .undefined

/-- Length of a JS array value. -/
def jlistLen : JList → Nat
  | .nil => 0
  | .cons _ tl => jlistLen tl + 1

/-- First element of a JS array value (`coords[0]`), `undef` when empty. -/
def jhead : JList → JVal
  | .nil => .undefined
  | .cons x _ => x

/-- Second element of a JS array value (`coords[1]`), `undef` when shorter. -/
def jsecond : JList → JVal
  | .cons _ (.cons x _) => x
  | _ => .undefined

/-- Source `isValidWGS84(coords)`:

    if (!Array.isArray(coords) || coords.length < 2) return false;
    return (typeof coords[0] === 'number' && typeof coords[1] === 'number' &&
            coords[0] >= -180 && coords[0] <= 180 &&
            coords[1] >= -90 && coords[1] <= 90);
-/
def isValidWGS84 : JVal → Bool
  | .arr xs =>
    if jlistLen xs < 2 then false
    else
      match jhead xs, jsecond xs with
      | .num a, .num b =>
        JNum.jle (.fin (-180)) a && JNum.jle a (.fin 180) &&
        JNum.jle (.fin (-90)) b && JNum.jle b (.fin 90)
      | _, _ => false
  | _ => false

-- Convenience constructors used for concrete test values.

/-- Embed a Lean list of JS values as a JS array value. -/
def jl : List JVal → JList
  | [] => .nil
  | x :: xs => .cons x (jl xs)

/-- Build a JS array from a Lean list. -/
def jarr (xs : List JVal) : JVal := .arr (jl xs)

/-- Build a JS object from a Lean association list. -/
def jobjOf : List (String × JVal) → JFields
  | [] => .nil
  | (k, v) :: fs => .cons k v (jobjOf fs)

/-- Build a JS object value from a Lean association list. -/
def jobj (fs : List (String × JVal)) : JVal := .obj (jobjOf fs)

/-- A finite JS number value. -/
def jnum (q : Rat) : JVal := .num (.fin q)

/-- A two-element coordinate array of finite numbers. -/
def jpt (x y : Rat) : JVal := jarr [jnum x, jnum y]

/-- A GeoJSON-shaped object `{ type: t, coordinates: c }`. -/
def mkGeom (t : String) (c : JVal) : JVal :=
  jobj [("type", .str t), ("coordinates", c)]

example : isValidWGS84 (jpt (Rat.divInt 27 2) (Rat.divInt 239 5)) = true := by decide
example : isValidWGS84 (jpt 400000 400000) = false := by decide
example : isValidWGS84 (jarr [.num .nan, jnum 47]) = false := by decide
example : isValidWGS84 (jarr []) = false := by decide
example : isValidWGS84 .null = false := by decide

/-! ## Coordinate Transformer (`transformGeometry`, `tryTransform`, `isWGS84`,
`extractFirstCoordinate`, `extractCoordinates`) -/

mutual
/-- The loop `while (Array.isArray(coords[0])) coords = coords[0];` of
`extractFirstCoordinate`: descend into the first element while it is an
array.  On an object, `coords[0]` is its `"0"` property. -/
def extractLoop : JVal → JVal
  | .arr (.cons (.arr ys) _) => extractLoop (.arr ys)
  | .obj fs => extractLoopObj fs fs
  | c => c

/-- Scan the fields of an object for `"0"`; if that property is an array the
loop continues there, otherwise the loop stops at the original object. -/
def extractLoopObj (orig : JFields) : JFields → JVal
  | .nil => .obj orig
  | .cons k v tl =>
    if k = "0" then
      match v with
      | .arr ys => extractLoop (.arr ys)
      | _ => .obj orig
    else extractLoopObj orig tl
end

/-- Source `extractFirstCoordinate(geometry)`:

    if (!geometry || !geometry.coordinates) return [];
    let coords = geometry.coordinates;
    while (Array.isArray(coords[0])) coords = coords[0];
    return coords;
-/
def extractFirstCoordinate (g : JVal) : JVal :=
  if truthy g = false then .arr .nil
  else if truthy (getField g "coordinates") = false then .arr .nil
  else extractLoop (getField g "coordinates")

/-- Source `isWGS84(geometry)`: validity of the first leaf coordinate. -/
def isWGS84 (g : JVal) : Bool :=
  isValidWGS84 (extractFirstCoordinate g)

/-- Source `extractCoordinates(geometry)`:

    const coords = this.extractFirstCoordinate(geometry);
    return this.isValidWGS84(coords) ? coords : [13.5, 47.8];
-/
def extractCoordinates (g : JVal) : JVal :=
  let coords := extractFirstCoordinate g
  if isValidWGS84 coords then coords
  else jarr [jnum (Rat.divInt 27 2), jnum (Rat.divInt 239 5)]

mutual
/-- `JSON.parse(JSON.stringify(v))` on our values: NaN and the infinities
become `null`, `undefined` array elements become `null`, object properties
whose value is `undefined` are dropped; everything else round-trips. -/
def jsonRound : JVal → JVal
  | .num (.fin q) => .num (.fin q)
  | .num _ => .null
  | .undefined => .null
  | .arr xs => .arr (jsonRoundList xs)
  | .obj fs => .obj (jsonRoundFields fs)
  | c => c

/-- JSON round-trip of the elements of an array. -/
def jsonRoundList : JList → JList
  | .nil => .nil
  | .cons x tl => .cons (jsonRound x) (jsonRoundList tl)

/-- JSON round-trip of the fields of an object. -/
def jsonRoundFields : JFields → JFields
  | .nil => .nil
  | .cons _ .undefined tl => jsonRoundFields tl
  | .cons k v tl => .cons k (jsonRound v) (jsonRoundFields tl)
end

/-- Replace the value of an existing key in place (insertion order kept),
or append the property when absent: JS `obj.coordinates = v`. -/
def setField : JFields → String → JVal → JFields
  | .nil, key, v => .cons key v .nil
  | .cons k w tl, key, v =>
    if k = key then .cons k v tl else .cons k w (setField tl key v)

/-- The assignment `transformed.coordinates = ...`.  `transformed` is the
JSON round-trip of the geometry; every geometry reaching this statement is
an object (any other value already threw inside `transformCoords`, see
`transformGeometry_ok_of_safe`), and on a primitive the strict-mode
assignment would itself throw. -/
def setCoordField : JVal → JVal → Except Unit JVal
  | .obj fs, v => .ok (.obj (setField fs "coordinates" v))
  | _, _ => .error ()

/-- The leaf case of `transformCoords`: try EPSG:31287, on an invalid result
try EPSG:31259, and return `result || coords`. -/
def transformLeaf (tt : String → JVal → JVal) (c : JVal) : JVal :=
  let r1 := tt "EPSG:31287" c
  let r := if isValidWGS84 r1 then r1 else tt "EPSG:31259" c
  if truthy r then r else c

mutual
/-- The recursive closure `transformCoords` inside `transformGeometry`,
parameterised by the candidate transformation `tt` (source
`tryTransform(coords, fromProj)`, which catches every proj4 exception and
returns `null` for that candidate):

    if (Array.isArray(coords[0])) return coords.map(c => transformCoords(c));
    let result = this.tryTransform(coords, 'EPSG:31287');
    if (!this.isValidWGS84(result)) result = this.tryTransform(coords, 'EPSG:31259');
    return result || coords;

`coords[0]` throws on `null`/`undefined`; `coords.map` throws when
`coords[0]` is an array but `coords` is not (an object with an array `"0"`
property has no `map` method). -/
def transformCoords (tt : String → JVal → JVal) : JVal → Except Unit JVal
  | .null => .error ()
  | .undefined => .error ()
  | .arr (.cons (.arr y) rest) => do
    let ys ← transformCoordsList tt (.cons (.arr y) rest)
    .ok (.arr ys)
  | .obj fs =>
    if isArrV (lookupField fs "0") then .error ()
    else .ok (transformLeaf tt (.obj fs))
  | c => .ok (transformLeaf tt c)

/-- `coords.map(c => transformCoords(c))`; a thrown exception propagates. -/
def transformCoordsList (tt : String → JVal → JVal) : JList → Except Unit JList
  | .nil => .ok .nil
  | .cons x tl => do
    let y ← transformCoords tt x
    let ys ← transformCoordsList tt tl
    .ok (.cons y ys)
end

/-- Source `transformGeometry(geometry)`:

    if (!geometry) return null;
    if (this.isWGS84(geometry)) return geometry;
    const transformed = JSON.parse(JSON.stringify(geometry));
    const transformCoords = (coords) => { ... };
    transformed.coordinates = transformCoords(geometry.coordinates);
    return transformed;

The result is an `Except`: `.error ()` is an uncaught JS exception. -/
def transformGeometry (tt : String → JVal → JVal) (g : JVal) : Except Unit JVal :=
  if truthy g = false then .ok .null
  else if isWGS84 g then .ok g
  else do
    let newCoords ← transformCoords tt (getField g "coordinates")
    setCoordField (jsonRound g) newCoords

-- The transformation that always fails (proj4 threw on both candidates).
example :
    transformGeometry (fun _ _ => .null) (mkGeom "Point" (jpt 13 47)) =
      .ok (mkGeom "Point" (jpt 13 47)) := by decide
-- A geometry whose first coordinate is not WGS84 and whose projection
-- attempts both fail keeps its original coordinates.
example :
    transformGeometry (fun _ _ => .null) (mkGeom "Point" (jpt 400000 500000)) =
      .ok (mkGeom "Point" (jpt 400000 500000)) := by decide
-- Missing coordinates field: the recursion indexes `undefined` and throws.
example :
    transformGeometry (fun _ _ => .null) (jobj [("type", .str "Point")]) =
      .error () := by decide

/-! ## Geometry Validator (`isValidGeoJSON`, `getGeometryComplexity`) -/

/-- Is the value a two-element array of finite numbers (the leaf check
`coords.length === 2 && coords.every(c => typeof c === 'number' && isFinite(c))`)? -/
def isCoordPair : JVal → Bool
  | .arr (.cons (.num a) (.cons (.num b) .nil)) => a.finite && b.finite
  | _ => false

mutual
/-- The recursive closure `checkCoords` inside `isValidGeoJSON`:

    if (Array.isArray(coords[0])) return coords.every(checkCoords);
    return coords.length === 2 && coords.every(c => typeof c === 'number' && isFinite(c));

`coords[0]` throws on `null`/`undefined`; `coords.every` throws when
`coords` has no `every` method (a string of length 2, or an object whose
`"0"` property is an array). -/
def checkCoords : JVal → Except Unit Bool
  | .null => .error ()
  | .undefined => .error ()
  | .arr (.cons (.arr y) rest) => checkCoordsList (.cons (.arr y) rest)
  | .arr xs => .ok (isCoordPair (.arr xs))
  | .obj fs => if isArrV (lookupField fs "0") then .error () else .ok false
  | .str s => if s.length = 2 then .error () else .ok false
  | _ => .ok false

/-- `coords.every(checkCoords)`: stop at the first `false`, propagate a
thrown exception. -/
def checkCoordsList : JList → Except Unit Bool
  | .nil => .ok true
  | .cons x tl => do
    let b ← checkCoords x
    if b then checkCoordsList tl else .ok false
end

/-- Source `isValidGeoJSON(geometry)`:

    if (!geometry || !geometry.type || !geometry.coordinates) return false;
    try { const checkCoords = (coords) => { ... };
          return checkCoords(geometry.coordinates);
    } catch (e) { return false; }
-/
def isValidGeoJSON (g : JVal) : Bool :=
  if truthy g = false then false
  else if truthy (getField g "type") = false then false
  else if truthy (getField g "coordinates") = false then false
  else
    match checkCoords (getField g "coordinates") with
    | .ok b => b
    | .error _ => false

example : isValidGeoJSON (mkGeom "Point" (jpt 13 47)) = true := by decide
example : isValidGeoJSON (mkGeom "Polygon" (jarr [jarr [jpt 13 47, jpt 14 47, jpt 14 48]])) = true := by decide
example : isValidGeoJSON (mkGeom "Point" (jarr [.num .nan, jnum 47])) = false := by decide
example : isValidGeoJSON (mkGeom "Point" (jarr [.num .inf, jnum 47])) = false := by decide
example : isValidGeoJSON (mkGeom "Point" (jarr [jnum 13, jnum 47, jnum 5])) = false := by decide
example : isValidGeoJSON (mkGeom "Point" (jarr [.str "13", jnum 47])) = false := by decide
example : isValidGeoJSON (mkGeom "LineString" (jarr [jpt 13 47, .null])) = false := by decide
example : isValidGeoJSON .null = false := by decide
example : isValidGeoJSON (jobj [("coordinates", jpt 13 47)]) = false := by decide

mutual
/-- The recursive closure `countCoords` inside `getGeometryComplexity`:

    if (Array.isArray(coords[0])) coords.forEach(c => countCoords(c));
    else count++;
-/
def countCoords : JVal → Except Unit Nat
  | .null => .error ()
  | .undefined => .error ()
  | .arr (.cons (.arr y) rest) => countCoordsList (.cons (.arr y) rest)
  | .arr _ => .ok 1
  | .obj fs => if isArrV (lookupField fs "0") then .error () else .ok 1
  | _ => .ok 1

/-- `coords.forEach(c => countCoords(c))`, accumulating the count. -/
def countCoordsList : JList → Except Unit Nat
  | .nil => .ok 0
  | .cons x tl => do
    let a ← countCoords x
    let b ← countCoordsList tl
    .ok (a + b)
end

/-- Source `getGeometryComplexity(geometry)`: leaf-coordinate count of
`geometry.coordinates` (uncaught exceptions propagate, e.g. for a `null`
geometry). -/
def getGeometryComplexity (g : JVal) : Except Unit Nat := do
  let c ← jsGetField g "coordinates"
  countCoords c

example : getGeometryComplexity (mkGeom "Polygon" (jarr [jarr [jpt 13 47, jpt 14 47, jpt 14 48]])) = .ok 3 := by decide
example : getGeometryComplexity (mkGeom "Point" (jpt 13 47)) = .ok 1 := by decide
example : getGeometryComplexity .null = .error () := by decide

/-! ## Area-of-Interest Filter (`isWithinAreaBounds`, `boundsIntersectArea`)

`this.areaOfInterestBounds` is either `null` (no boundary source loaded) or
a bounding box `[minLon, minLat, maxLon, maxLat]` of finite numbers, built
in `loadAreaBounds` from `turf.bbox` results by progressive `Math.min` /
`Math.max` widening; it is modelled as an `Option` of a 4-tuple of
rationals, in the same order. -/

/-- A bounding box `[minLon, minLat, maxLon, maxLat]`. -/
abbrev BBox := Rat × Rat × Rat × Rat

/-- Source `isWithinAreaBounds(longitude, latitude)`:

    if (!this.areaOfInterestBounds) return true;
    return longitude >= b[0] && longitude <= b[2] && latitude >= b[1] && latitude <= b[3];
-/
def isWithinAreaBounds (area : Option BBox) (longitude latitude : Rat) : Bool :=
  match area with
  | none => true
  | some (minLon, minLat, maxLon, maxLat) =>
    decide (minLon ≤ longitude) && decide (longitude ≤ maxLon) &&
    decide (minLat ≤ latitude) && decide (latitude ≤ maxLat)

/-- Source `boundsIntersectArea(bounds)`:

    if (!bounds || !this.areaOfInterestBounds) return true;
    return !(bounds[2] < a[0] || bounds[0] > a[2] || bounds[3] < a[1] || bounds[1] > a[3]);
-/
def boundsIntersectArea (area : Option BBox) (bounds : Option BBox) : Bool :=
  match bounds, area with
  | none, _ => true
  | _, none => true
  | some (bMinLon, bMinLat, bMaxLon, bMaxLat),
    some (aMinLon, aMinLat, aMaxLon, aMaxLat) =>
    !(decide (bMaxLon < aMinLon) || decide (bMinLon > aMaxLon) ||
      decide (bMaxLat < aMinLat) || decide (bMinLat > aMaxLat))

example : isWithinAreaBounds none 999 999 = true := by decide
example : isWithinAreaBounds (some (13, 47, 14, 48)) 13 48 = true := by decide
example : isWithinAreaBounds (some (13, 47, 14, 48)) 20 48 = false := by decide
example : boundsIntersectArea none (some (0, 0, 1, 1)) = true := by decide
example : boundsIntersectArea (some (13, 47, 14, 48)) none = true := by decide
example : boundsIntersectArea (some (13, 47, 14, 48)) (some (14, 48, 15, 49)) = true := by decide
example : boundsIntersectArea (some (13, 47, 14, 48)) (some (20, 47, 21, 48)) = false := by decide

/-! ## Leaves of a coordinate nesting, and the turf.bbox model -/

mutual
/-- The leaf coordinate nodes of a GeoJSON coordinate nesting: a node whose
first element is an array has its elements as children; every other node is
a leaf.  This is the descent shared by `checkCoords`, `countCoords` and
`transformCoords`. -/
def leavesOf : JVal → List JVal
  | .arr (.cons (.arr y) rest) => leavesOfList (.cons (.arr y) rest)
  | c => [c]

/-- Leaves of all elements of an array node, in order. -/
def leavesOfList : JList → List JVal
  | .nil => []
  | .cons x tl => leavesOf x ++ leavesOfList tl
end

/-- A leaf that is exactly `[x, y]` for finite numbers `x`, `y`. -/
def leafPt : JVal → Option (Rat × Rat)
  | .arr (.cons (.num (.fin x)) (.cons (.num (.fin y)) .nil)) => some (x, y)
  | _ => none

/-- Widen a bounding box to include a point. -/
def bboxAdd (b : BBox) (p : Rat × Rat) : BBox :=
  (min b.1 p.1, min b.2.1 p.2, max b.2.2.1 p.1, max b.2.2.2 p.2)

/-- Bounding box of a list of leaves; `none` when some leaf is not a finite
coordinate pair. -/
def bboxOfLeaves : List JVal → Option BBox
  | [] => none
  | c :: rest => do
    let p ← leafPt c
    rest.foldlM (fun b c2 => do
      let q ← leafPt c2
      pure (bboxAdd b q)) (p.1, p.2, p.1, p.2)

/-- Source `getGeometryBounds(geometry)`:

    try { return turf.bbox(geometry); } catch (error) { return null; }

Modelled from the spec: `turf.bbox` is the external turf library computing
the `[minLon, minLat, maxLon, maxLat]` box of a geometry ("computing its
bounding box"); the model folds min/max over the leaf coordinate pairs and
treats a geometry with any malformed leaf as a thrown exception, which
`getGeometryBounds` turns into `null` (`none`). -/
def getGeometryBounds (g : JVal) : Option BBox :=
  bboxOfLeaves (leavesOf (getField g "coordinates"))

example :
    getGeometryBounds (mkGeom "Polygon" (jarr [jarr [jpt 13 47, jpt 14 47, jpt 14 48]])) =
      some (13, 47, 14, 48) := by decide
example : getGeometryBounds .null = none := by decide

/-! ## Geometry Simplifier (`simplifyGeometry` and the turf.simplify model) -/

/-- Squared distance between two points. -/
def sqDistPts (p q : Rat × Rat) : Rat :=
  (p.1 - q.1) * (p.1 - q.1) + (p.2 - q.2) * (p.2 - q.2)

/-- Squared distance from `p` to the segment `a`-`b` (the standard
point-to-segment distance used by Douglas-Peucker). -/
def sqSegDist (p a b : Rat × Rat) : Rat :=
  let dx := b.1 - a.1
  let dy := b.2 - a.2
  if dx = 0 ∧ dy = 0 then sqDistPts p a
  else
    let t := ((p.1 - a.1) * dx + (p.2 - a.2) * dy) / (dx * dx + dy * dy)
    if 1 ≤ t then sqDistPts p b
    else if t ≤ 0 then sqDistPts p a
    else sqDistPts p (a.1 + dx * t, a.2 + dy * t)

/-- Split a list at an element maximising `f`: returns the elements before,
the maximising element, and the elements after. -/
def splitAtMax (f : Rat × Rat → Rat) : List (Rat × Rat) →
    Option (List (Rat × Rat) × (Rat × Rat) × List (Rat × Rat))
  | [] => none
  | p :: ps =>
    match splitAtMax f ps with
    | none => some ([], p, [])
    | some (pre, q, post) =>
      if f q < f p then some ([], p, ps) else some (p :: pre, q, post)

/-- Douglas-Peucker on the interior points `mid` of a segment from `a` to
`b`: keep the interior point farthest from the segment when it deviates by
more than the tolerance and recurse on both sides, otherwise drop all
interior points.  `fuel` bounds the recursion depth; any `fuel ≥ mid.length`
gives the untruncated algorithm since each recursive call works on a
strictly shorter interior list. -/
def dpRec (fuel : Nat) (tol2 : Rat) (a b : Rat × Rat)
    (mid : List (Rat × Rat)) : List (Rat × Rat) :=
  match fuel with
  | 0 => []
  | fuel + 1 =>
    match splitAtMax (fun p => sqSegDist p a b) mid with
    | none => []
    | some (pre, q, post) =>
      if tol2 < sqSegDist q a b then
        dpRec fuel tol2 a q pre ++ q :: dpRec fuel tol2 q b post
      else []

/-- Modelled from the spec: the external turf simplification of one line or
ring ("reduce vertex count using a standard line/polygon simplification
algorithm (e.g., Douglas-Peucker equivalent) at the given tolerance"):
keep the endpoints and run Douglas-Peucker on the interior points with the
squared tolerance. -/
def simplifyLine (tol : Rat) : List (Rat × Rat) → List (Rat × Rat)
  | [] => []
  | [p] => [p]
  | a :: r1 :: rs =>
    let rest := r1 :: rs
    let b := rest.getLastD r1
    let mid := rest.dropLast
    a :: (dpRec mid.length (tol * tol) a b mid ++ [b])

/-- Parse a JS array of leaves as a list of coordinate pairs. -/
def parseLine : JList → Option (List (Rat × Rat))
  | .nil => some []
  | .cons c tl => do
    let p ← leafPt c
    let ps ← parseLine tl
    pure (p :: ps)

/-- Rebuild a JS array of leaves from coordinate pairs. -/
def unparseLine : List (Rat × Rat) → JList
  | [] => .nil
  | p :: ps => .cons (jpt p.1 p.2) (unparseLine ps)

/-- Parse a JS array of rings (or line strings). -/
def parseRings : JList → Option (List (List (Rat × Rat)))
  | .nil => some []
  | .cons (.arr ys) tl => do
    let r ← parseLine ys
    let rs ← parseRings tl
    pure (r :: rs)
  | .cons _ _ => none

/-- Rebuild a JS array of rings. -/
def unparseRings : List (List (Rat × Rat)) → JList
  | [] => .nil
  | r :: rs => .cons (.arr (unparseLine r)) (unparseRings rs)

/-- Parse a JS array of polygons (each a list of rings). -/
def parsePolys : JList → Option (List (List (List (Rat × Rat))))
  | .nil => some []
  | .cons (.arr ys) tl => do
    let p ← parseRings ys
    let ps ← parsePolys tl
    pure (p :: ps)
  | .cons _ _ => none

/-- Rebuild a JS array of polygons. -/
def unparsePolys : List (List (List (Rat × Rat))) → JList
  | [] => .nil
  | p :: ps => .cons (.arr (unparseRings p)) (unparsePolys ps)

/-- The line/ring simplification of the turf model, dispatched on the
geometry type string, applied to a coordinates array. -/
def turfSimplifyCoords (tol : Rat) (t : String) (cs : JList) : Except Unit JVal :=
  if t = "LineString" then
    match parseLine cs with
    | some pts => .ok (mkGeom t (.arr (unparseLine (simplifyLine tol pts))))
    | none => .error ()
  else if t = "MultiLineString" ∨ t = "Polygon" then
    match parseRings cs with
    | some rs => .ok (mkGeom t (.arr (unparseRings (rs.map (simplifyLine tol)))))
    | none => .error ()
  else if t = "MultiPolygon" then
    match parsePolys cs with
    | some ps =>
      .ok (mkGeom t (.arr (unparsePolys (ps.map (List.map (simplifyLine tol))))))
    | none => .error ()
  else .error ()

/-- The turf model on an object geometry with a string type `t`: point
geometries pass through unchanged, line and polygon geometries have each
line/ring simplified, anything else is a thrown exception. -/
def turfSimplifyTyped (tol : Rat) (fs : JFields) (t : String) : Except Unit JVal :=
  if t = "Point" ∨ t = "MultiPoint" then .ok (.obj fs)
  else
    match lookupField fs "coordinates" with
    | .arr cs => turfSimplifyCoords tol t cs
    | _ => .error ()

/-- Modelled from the spec: `turf.simplify(turf.feature(geometry), {tolerance}).geometry`,
the external turf library call inside `simplifyGeometry`.  Line and polygon
coordinate nestings are simplified per line/ring; point geometries pass
through; a geometry the library cannot process (wrong shape, malformed
leaves, missing type) is a thrown exception (`.error`). -/
def turfSimplify (tol : Rat) (g : JVal) : Except Unit JVal :=
  match g with
  | .obj fs =>
    match lookupField fs "type" with
    | .str t => turfSimplifyTyped tol fs t
    | _ => .error ()
  | _ => .error ()

/-- Source `simplifyGeometry(geometry, tolerance = 0.001)`:

    try { return turf.simplify(turf.feature(geometry), {tolerance}).geometry; }
    catch (error) { return geometry; }
-/
def simplifyGeometry (g : JVal) (tol : Rat) : JVal :=
  match turfSimplify tol g with
  | .ok g2 => g2
  | .error _ => g

/-! ## Per-layer importer pieces used by the claims -/

/-- Source `getVotingColor(percentage)` of the importer (the argument is the
finite `left_green_combined` sum; for a finite number `!percentage` is
exactly `percentage == 0`, so the guard `!percentage || percentage <= 0`
is `percentage <= 0`). -/
def getVotingColor (percentage : Rat) : String :=
  if percentage ≤ 0 then "#cccccc"
  else if 60 ≤ percentage then "#00AA00"
  else if 50 ≤ percentage then "#22BB22"
  else if 40 ≤ percentage then "#44CC44"
  else if 30 ≤ percentage then "#66DD66"
  else if 20 ≤ percentage then "#88EE88"
  else if 15 ≤ percentage then "#AAAA00"
  else if 10 ≤ percentage then "#CCCC00"
  else if 5 ≤ percentage then "#DDAA00"
  else "#EE8800"

/-- The six per-party percentages of one voting district record, after the
importer's `parseFloat(properties[..]) || 0` defaulting (hence finite
numbers, modelled as rationals). -/
structure PartyPercents where
  spo : Rat
  grune : Rat
  kpo : Rat
  ovp : Rat
  fpo : Rat
  neos : Rat
deriving DecidableEq, Repr

/-- Source `const leftGreenCombined = spoPercent + grunePercent + kpoPercent;`. -/
def leftGreenCombined (p : PartyPercents) : Rat := p.spo + p.grune + p.kpo

/-- Source `const hasVotingData = spoPercent > 0 || grunePercent > 0 || ...;`. -/
def hasVotingData (p : PartyPercents) : Bool :=
  decide (0 < p.spo) || decide (0 < p.grune) || decide (0 < p.kpo) ||
  decide (0 < p.ovp) || decide (0 < p.fpo) || decide (0 < p.neos)

/-- The `choropleth_color` insert parameter:
`hasVotingData ? this.getVotingColor(leftGreenCombined) : '#cccccc'`. -/
def choroplethColor (p : PartyPercents) : String :=
  if hasVotingData p then getVotingColor (leftGreenCombined p) else "#cccccc"

/-- Source `const isProminent = totalCO2 > 50000;` of `importCO2Sources`. -/
def isProminent (totalCO2 : Rat) : Bool := decide (50000 < totalCO2)

/-- The `pin_size` insert parameter of `importCO2Sources`:
`isProminent ? 4 : 2`. -/
def pinSize (totalCO2 : Rat) : Nat := if isProminent totalCO2 then 4 else 2

/-- Outcome of one iteration of the point branch of the gas
infrastructure loop (`importGasInfrastructure` with `gasFile.type` not
equal to `line`):

    const coords = this.extractCoordinates(geometry);
    if (!this.isValidWGS84(coords)) continue;             // rejectedInvalid
    if (!this.isWithinAreaBounds(coords[0], coords[1])) { filtered++; continue; }
    ... INSERT ...; imported++;
-/
inductive GasPointOutcome where
  | rejectedInvalid
  | filtered
  | imported
deriving DecidableEq, Repr

/-- `coords[0]` of a coordinate array as a rational (only evaluated on
values passing `isValidWGS84`, whose first two entries are finite). -/
def jlon : JVal → Rat
  | .arr (.cons (.num (.fin x)) _) => x
  | _ => 0

/-- `coords[1]` of a coordinate array as a rational. -/
def jlat : JVal → Rat
  | .arr (.cons _ (.cons (.num (.fin y)) _)) => y
  | _ => 0

/-- One gas-infrastructure point record, classified; `g` is the already
transformed geometry of the feature. -/
def gasPointRecord (area : Option BBox) (g : JVal) : GasPointOutcome :=
  let coords := extractCoordinates g
  if isValidWGS84 coords = false then .rejectedInvalid
  else if isWithinAreaBounds area (jlon coords) (jlat coords) = false then .filtered
  else .imported

/-- Outcome of one iteration of the `importGroundwaterAreasOptimized` read
loop body (inside its per-record `try { .. } catch (error) { skipped++; }`):

    const geometry = this.transformGeometry(result.value.geometry);
    if (!this.isValidGeoJSON(geometry)) { skipped++; continue; }
    const bbox = this.getGeometryBounds(geometry);
    if (!this.boundsIntersectArea(bbox)) { skipped++; continue; }
    let simplifiedGeom = geometry;
    if (this.getGeometryComplexity(geometry) > 1000)
        simplifiedGeom = this.simplifyGeometry(geometry, 0.001);
    await this.client.query(INSERT ..., simplifiedGeom, ...); imported++;

A thrown exception anywhere in the body (including inside
`transformGeometry` and `getGeometryComplexity`) is caught by the
per-record catch and counted as skipped; the database insert is modelled
as succeeding. -/
inductive GwOutcome where
  | imported
  | skipped
deriving DecidableEq, Repr

/-- Classify one groundwater-area record; `geom` is the raw
`result.value.geometry` of the shapefile feature. -/
def gwProcessRecord (tt : String → JVal → JVal) (area : Option BBox)
    (geom : JVal) : GwOutcome :=
  match transformGeometry tt geom with
  | .error _ => .skipped
  | .ok g =>
    if isValidGeoJSON g = false then .skipped
    else if boundsIntersectArea area (getGeometryBounds g) = false then .skipped
    else
      match getGeometryComplexity g with
      | .error _ => .skipped
      | .ok _ => .imported

/-- The per-file statistics of `importGroundwaterAreasOptimized`; after the
loop they are folded into the global counters by
`this.stats.groundwaterAreas += imported;`
`this.stats.filteredOutByArea += skipped;` — and `this.stats.errors` is not
touched by this importer (it is only incremented by the top-level catch of
`importAllData`), recorded here as the always-zero `errorsDelta`. -/
structure GwStats where
  imported : Nat
  skipped : Nat
  errorsDelta : Nat
deriving DecidableEq, Repr

/-- The read loop of `importGroundwaterAreasOptimized`, counting outcomes. -/
def gwLoop (tt : String → JVal → JVal) (area : Option BBox) :
    List JVal → Nat → Nat → Nat × Nat
  | [], imported, skipped => (imported, skipped)
  | f :: rest, imported, skipped =>
    match gwProcessRecord tt area f with
    | .imported => gwLoop tt area rest (imported + 1) skipped
    | .skipped => gwLoop tt area rest imported (skipped + 1)

/-- The whole per-file import: the loop stops after `maxFeatures` processed
records (`if (result.done || processed >= maxFeatures) break;`). -/
def gwImportStats (tt : String → JVal → JVal) (area : Option BBox)
    (maxFeatures : Nat) (features : List JVal) : GwStats :=
  let r := gwLoop tt area (features.take maxFeatures) 0 0
  ⟨r.1, r.2, 0⟩


/-! ## Joint induction over JS values -/

/-- Joint structural induction for `JVal`, `JList` and `JFields`. -/
theorem jval_induction (P : JVal → Prop) (Q : JList → Prop) (R : JFields → Prop)
    (hnull : P .null) (hundf : P .undefined)
    (hbool : ∀ b, P (.bool b)) (hnum : ∀ n, P (.num n)) (hstr : ∀ s, P (.str s))
    (harr : ∀ xs, Q xs → P (.arr xs)) (hobj : ∀ fs, R fs → P (.obj fs))
    (hnil : Q .nil) (hcons : ∀ hd tl, P hd → Q tl → Q (.cons hd tl))
    (hfnil : R .nil) (hfcons : ∀ k v tl, P v → R tl → R (.cons k v tl)) :
    (∀ c, P c) ∧ (∀ xs, Q xs) ∧ (∀ fs, R fs) :=
  ⟨fun c => JVal.rec hnull hundf hbool hnum hstr harr hobj hnil hcons hfnil hfcons c,
   fun xs => JList.rec hnull hundf hbool hnum hstr harr hobj hnil hcons hfnil hfcons xs,
   fun fs => JFields.rec hnull hundf hbool hnum hstr harr hobj hnil hcons hfnil hfcons fs⟩

/-! ## C4: the validity gate -/

/-- Unfolding `checkCoordsList` on a cons whose head check throws. -/
theorem checkCoordsList_cons_error {hd : JVal} {tl : JList} {e : Unit}
    (h : checkCoords hd = .error e) :
    checkCoordsList (.cons hd tl) = .error e := by
  rw [checkCoordsList, h]; rfl

/-- Unfolding `checkCoordsList` on a cons whose head check is false. -/
theorem checkCoordsList_cons_false {hd : JVal} {tl : JList}
    (h : checkCoords hd = .ok false) :
    checkCoordsList (.cons hd tl) = .ok false := by
  rw [checkCoordsList, h]; rfl

/-- Unfolding `checkCoordsList` on a cons whose head check is true. -/
theorem checkCoordsList_cons_true {hd : JVal} {tl : JList}
    (h : checkCoords hd = .ok true) :
    checkCoordsList (.cons hd tl) = checkCoordsList tl := by
  rw [checkCoordsList, h]; rfl

/-- `checkCoords` succeeds with `true` exactly when every leaf of the
descent is a two-element array of finite numbers. -/
theorem checkCoords_iff_leaves :
    (∀ c, checkCoords c = .ok true ↔ ∀ l ∈ leavesOf c, isCoordPair l = true) ∧
    (∀ xs, checkCoordsList xs = .ok true ↔ ∀ l ∈ leavesOfList xs, isCoordPair l = true) := by
  have h := jval_induction
    (fun c => (checkCoords c = .ok true ↔ ∀ l ∈ leavesOf c, isCoordPair l = true))
    (fun xs => (checkCoordsList xs = .ok true ↔ ∀ l ∈ leavesOfList xs, isCoordPair l = true))
    (fun _ => True)
    (by simp [checkCoords, leavesOf, isCoordPair])
    (by simp [checkCoords, leavesOf, isCoordPair])
    (fun b => by simp [checkCoords, leavesOf, isCoordPair])
    (fun n => by simp [checkCoords, leavesOf, isCoordPair])
    (fun s => by
      simp only [checkCoords, leavesOf]
      split <;> simp [isCoordPair])
    (fun xs hQ => by
      cases xs with
      | nil => simp [checkCoords, leavesOf, isCoordPair]
      | cons hd tl =>
        cases hd
        case arr ys => exact hQ
        all_goals simp [checkCoords, leavesOf])
    (fun fs _ => by
      simp only [checkCoords, leavesOf]
      split <;> simp [isCoordPair])
    (by simp [checkCoordsList, leavesOfList])
    (fun hd tl hP hQ => by
      cases h : checkCoords hd with
      | error e =>
        have hA : ¬∀ l ∈ leavesOf hd, isCoordPair l = true := fun hAll => by
          have h2 := hP.mpr hAll
          rw [h] at h2
          exact Except.noConfusion h2
        constructor
        · intro hL
          rw [checkCoordsList_cons_error h] at hL
          exact Except.noConfusion hL
        · intro hR
          exact absurd (fun l hl => hR l (by simp [leavesOfList, hl])) hA
      | ok b =>
        cases b with
        | false =>
          have hA : ¬∀ l ∈ leavesOf hd, isCoordPair l = true := fun hAll => by
            have h2 := hP.mpr hAll
            rw [h] at h2
            simp at h2
          constructor
          · intro hL
            rw [checkCoordsList_cons_false h] at hL
            simp at hL
          · intro hR
            exact absurd (fun l hl => hR l (by simp [leavesOfList, hl])) hA
        | true =>
          have hhd : ∀ l ∈ leavesOf hd, isCoordPair l = true := hP.mp h
          constructor
          · intro hL l hl
            rw [checkCoordsList_cons_true h] at hL
            simp only [leavesOfList, List.mem_append] at hl
            rcases hl with hl | hl
            · exact hhd l hl
            · exact (hQ.mp hL) l hl
          · intro hR
            rw [checkCoordsList_cons_true h]
            exact hQ.mpr (fun l hl => hR l (by simp [leavesOfList, hl])))
    trivial
    (fun k v tl _ _ => trivial)
  exact ⟨h.1, h.2.1⟩

/-- A leaf is exactly a two-element array of finite numbers iff it is
`[x, y]` for rationals `x`, `y`. -/
theorem isCoordPair_iff (l : JVal) :
    isCoordPair l = true ↔ ∃ x y : Rat, l = jpt x y := by
  constructor
  · intro h
    rcases l with _ | _ | b | n | s | xs | fs <;> try simp [isCoordPair] at h
    rcases xs with _ | ⟨hd, tl⟩ <;> try simp [isCoordPair] at h
    rcases hd with _ | _ | b | n | s | ys | fs <;> try simp [isCoordPair] at h
    rcases tl with _ | ⟨hd2, tl2⟩ <;> try simp [isCoordPair] at h
    rcases hd2 with _ | _ | b | n2 | s | ys | fs <;> try simp [isCoordPair] at h
    rcases tl2 with _ | ⟨hd3, tl3⟩ <;> try simp [isCoordPair] at h
    rcases n with x | _ | _ <;> try simp [isCoordPair, JNum.finite] at h
    rcases n2 with y | _ | _ <;> try simp [isCoordPair, JNum.finite] at h
    exact ⟨x, y, rfl⟩
  · rintro ⟨x, y, rfl⟩
    rfl

/-- The words of claim C4: the geometry is non-null (truthy), has a
(truthy) type and a (truthy) coordinates structure, and every leaf
coordinate of the coordinates nesting is an array of exactly two finite
numbers. -/
def specValidGeoJSON (g : JVal) : Prop :=
  truthy g = true ∧ truthy (getField g "type") = true ∧
  truthy (getField g "coordinates") = true ∧
  ∀ l ∈ leavesOf (getField g "coordinates"), ∃ x y : Rat, l = jpt x y

/-- Claim C4: `isValidGeoJSON` returns true iff the geometry is non-null,
has a type and a coordinates structure, and every leaf coordinate of the
coordinates nesting is an array of exactly two finite numbers; in
particular any non-numeric, infinite, NaN, or wrong-arity leaf at any
nesting depth makes it false. -/
theorem c4_isValidGeoJSON_iff (g : JVal) :
    isValidGeoJSON g = true ↔ specValidGeoJSON g := by
  unfold isValidGeoJSON specValidGeoJSON
  rcases h1 : truthy g with _ | _
  · simp [h1]
  rcases h2 : truthy (getField g "type") with _ | _
  · simp [h2]
  rcases h3 : truthy (getField g "coordinates") with _ | _
  · simp [h3]
  have hmain := checkCoords_iff_leaves.1 (getField g "coordinates")
  rcases hc : checkCoords (getField g "coordinates") with e | b
  · rw [hc] at hmain
    simp only [hc]
    constructor
    · intro hL
      exact absurd hL (by simp)
    · intro hR
      have := hmain.mpr (fun l hl => (isCoordPair_iff l).mpr (hR.2.2.2 l hl))
      exact Except.noConfusion this
  · rw [hc] at hmain
    simp only [hc]
    constructor
    · intro hb
      refine ⟨trivial, trivial, trivial, fun l hl => ?_⟩
      have hb2 : b = true := by
        rcases b with _ | _
        · simp at hb
        · rfl
      rw [hb2] at hmain
      exact (isCoordPair_iff l).mp (hmain.mp rfl l hl)
    · intro hR
      have := hmain.mpr (fun l hl => (isCoordPair_iff l).mpr (hR.2.2.2 l hl))
      have hb2 : b = true := Except.ok.inj this
      simp [hb2]

/-! ## C1, C2, C6: the transformer -/

/-- The extract loop stops at an array whose first element is not an array. -/
theorem extractLoop_cons_nonarr (x : JVal) (xs : JList) (h : isArrV x = false) :
    extractLoop (.arr (.cons x xs)) = .arr (.cons x xs) := by
  cases x
  case arr ys => simp [isArrV] at h
  all_goals rfl

/-- `transformCoords` on an array whose first element is not an array is the
leaf case. -/
theorem transformCoords_cons_nonarr (tt : String → JVal → JVal) (x : JVal)
    (xs : JList) (h : isArrV x = false) :
    transformCoords tt (.arr (.cons x xs)) =
      .ok (transformLeaf tt (.arr (.cons x xs))) := by
  cases x
  case arr ys => simp [isArrV] at h
  all_goals rfl

/-- Claim C2, amended: the already-valid-WGS84 passthrough is a whole
geometry test on the first leaf only — when the first leaf coordinate of
the geometry is valid WGS84, `transformGeometry` returns the whole geometry
unchanged (for every candidate transformation behaviour). -/
theorem c2_transform_passthrough_first_leaf (tt : String → JVal → JVal)
    (g : JVal) (h : isWGS84 g = true) : transformGeometry tt g = .ok g := by
  have htr : truthy g = true := by
    rcases hg : truthy g with _ | _
    · rw [isWGS84, extractFirstCoordinate, hg] at h
      simp [isValidWGS84, jlistLen] at h
    · rfl
  rw [transformGeometry, htr, h]
  simp

/-- Claim C2 counterexample: a LineString whose first leaf is not valid
WGS84 but whose second leaf `[13, 47]` is valid; with a candidate
projection returning `[14, 48]` (as the real proj4 forward projection
returns some new coordinate pair for in-domain input), the valid second
leaf is transformed, not left unchanged. -/
theorem c2_counterexample :
    isValidWGS84 (jpt 13 47) = true ∧
    transformGeometry (fun _ _ => jpt 14 48)
        (mkGeom "LineString" (jarr [jpt 400000 500000, jpt 13 47])) =
      .ok (mkGeom "LineString" (jarr [jpt 14 48, jpt 14 48])) ∧
    (jpt 14 48 : JVal) ≠ jpt 13 47 := by decide

/-- Claim C2 witness: a Point already in valid WGS84 range is returned
unchanged. -/
theorem c2_witness :
    isWGS84 (mkGeom "Point" (jpt 13 47)) = true ∧
    transformGeometry (fun _ _ => .null) (mkGeom "Point" (jpt 13 47)) =
      .ok (mkGeom "Point" (jpt 13 47)) :=
  ⟨by decide, c2_transform_passthrough_first_leaf _ _ (by decide)⟩

/-- Claim C1, amended: for a leaf coordinate pair that is not valid WGS84
and for which both candidate projections fail the validity check, the
original pair is returned exactly when the second candidate attempt
returned `null` (i.e. proj4 threw); `result || coords` otherwise keeps the
second (invalid) candidate result. -/
theorem c1_transform_fallback_original (tt : String → JVal → JVal)
    (x : JVal) (xs : JList) (hx : isArrV x = false)
    (h0 : isValidWGS84 (.arr (.cons x xs)) = false)
    (h1 : isValidWGS84 (tt "EPSG:31287" (.arr (.cons x xs))) = false)
    (h2 : tt "EPSG:31259" (.arr (.cons x xs)) = .null) :
    transformGeometry tt (mkGeom "Point" (.arr (.cons x xs))) =
      .ok (mkGeom "Point" (.arr (.cons x xs))) := by
  have hLeaf : transformLeaf tt (.arr (.cons x xs)) = .arr (.cons x xs) := by
    rw [transformLeaf]
    simp only [h1, if_false, h2, Bool.false_eq_true]
    rfl
  have hGet : getField (mkGeom "Point" (.arr (.cons x xs))) "coordinates" =
      .arr (.cons x xs) := by rfl
  have hWGS : isWGS84 (mkGeom "Point" (.arr (.cons x xs))) = false := by
    rw [isWGS84, extractFirstCoordinate]
    simp only [hGet]
    rw [if_neg (by simp [mkGeom, jobj, jobjOf, truthy]),
      if_neg (by simp [truthy]), extractLoop_cons_nonarr x xs hx]
    exact h0
  rw [transformGeometry, hWGS]
  simp only [Bool.false_eq_true, if_false]
  rw [if_neg (by simp [mkGeom, jobj, jobjOf, truthy])]
  rw [hGet, transformCoords_cons_nonarr tt x xs hx, hLeaf]
  have hjson : jsonRound (mkGeom "Point" (.arr (.cons x xs))) =
      .obj (.cons "type" (.str "Point")
        (.cons "coordinates" (jsonRound (.arr (.cons x xs))) .nil)) := by rfl
  show setCoordField (jsonRound (mkGeom "Point" (.arr (.cons x xs))))
      (.arr (.cons x xs)) = .ok (mkGeom "Point" (.arr (.cons x xs)))
  rw [hjson]
  rfl

/-- Claim C1 counterexample: the leaf `[400000, 500000]` is not valid
WGS84 and the candidate transformation returns `[NaN, NaN]` for both
candidates (as the real proj4 forward projection does on out-of-domain
input, returning a non-null array that fails the validity check); the
returned leaf is then `[NaN, NaN]`, not the original untransformed pair. -/
theorem c1_counterexample :
    isValidWGS84 (jpt 400000 500000) = false ∧
    isValidWGS84 ((fun _ _ => jarr [.num .nan, .num .nan]) "EPSG:31287" (jpt 400000 500000)) = false ∧
    isValidWGS84 ((fun _ _ => jarr [.num .nan, .num .nan]) "EPSG:31259" (jpt 400000 500000)) = false ∧
    transformGeometry (fun _ _ => jarr [.num .nan, .num .nan])
        (mkGeom "Point" (jpt 400000 500000)) =
      .ok (mkGeom "Point" (jarr [.num .nan, .num .nan])) ∧
    (jarr [.num .nan, .num .nan] : JVal) ≠ jpt 400000 500000 := by decide

/-- Claim C1 witness: with a candidate transformation that returns `null`
for every candidate (both proj4 attempts threw), the original
untransformed leaf is kept. -/
theorem c1_witness :
    isArrV (jnum 1000) = false ∧
    isValidWGS84 (jarr [jnum 1000, jnum 2000]) = false ∧
    ((fun _ _ => JVal.null) "EPSG:31259" (jarr [jnum 1000, jnum 2000])) = JVal.null ∧
    transformGeometry (fun _ _ => JVal.null)
        (mkGeom "Point" (jarr [jnum 1000, jnum 2000])) =
      .ok (mkGeom "Point" (jarr [jnum 1000, jnum 2000])) :=
  ⟨by decide, by decide, rfl,
    c1_transform_fallback_original (fun _ _ => JVal.null) (jnum 1000)
      (.cons (jnum 2000) .nil) (by decide) (by decide) (by decide) rfl⟩

mutual
/-- The coordinate nestings on which the `transformCoords` recursion cannot
throw: no `null`/`undefined` node is reached (indexing one throws), and no
object with an array `"0"` property is reached (calling its missing `map`
method throws). -/
def coordsSafe : JVal → Bool
  | .null => false
  | .undefined => false
  | .arr (.cons (.arr y) rest) => coordsSafeList (.cons (.arr y) rest)
  | .obj fs => !isArrV (lookupField fs "0")
  | _ => true

/-- All elements of an array node are safe. -/
def coordsSafeList : JList → Bool
  | .nil => true
  | .cons x tl => coordsSafe x && coordsSafeList tl
end

/-- On a safe coordinate nesting `transformCoords` never throws. -/
theorem transformCoords_ok_of_safe (tt : String → JVal → JVal) :
    (∀ c, coordsSafe c = true → ∃ r, transformCoords tt c = .ok r) ∧
    (∀ xs, coordsSafeList xs = true → ∃ rs, transformCoordsList tt xs = .ok rs) := by
  have h := jval_induction
    (fun c => coordsSafe c = true → ∃ r, transformCoords tt c = .ok r)
    (fun xs => coordsSafeList xs = true → ∃ rs, transformCoordsList tt xs = .ok rs)
    (fun _ => True)
    (by simp [coordsSafe])
    (by simp [coordsSafe])
    (fun b _ => ⟨_, rfl⟩)
    (fun n _ => ⟨_, rfl⟩)
    (fun s _ => ⟨_, rfl⟩)
    (fun xs hQ hsafe => by
      cases xs with
      | nil => exact ⟨_, rfl⟩
      | cons hd tl =>
        cases hd
        case arr ys =>
          obtain ⟨rs, hrs⟩ := hQ (by simpa [coordsSafe] using hsafe)
          refine ⟨.arr rs, ?_⟩
          rw [transformCoords, hrs]
          rfl
        all_goals exact ⟨_, rfl⟩)
    (fun fs _ hsafe => by
      rw [transformCoords]
      rw [coordsSafe] at hsafe
      rcases ha : isArrV (lookupField fs "0") with _ | _
      · exact ⟨_, by rw [if_neg (by simp [ha])]⟩
      · rw [ha] at hsafe
        simp at hsafe)
    (fun _ => ⟨_, rfl⟩)
    (fun hd tl hP hQ hsafe => by
      rw [coordsSafeList] at hsafe
      obtain ⟨hs1, hs2⟩ := Bool.and_eq_true_iff.mp hsafe
      obtain ⟨r, hr⟩ := hP hs1
      obtain ⟨rs, hrs⟩ := hQ hs2
      refine ⟨.cons r rs, ?_⟩
      rw [transformCoordsList, hr]
      show transformCoordsList tt tl >>= _ = _
      rw [hrs]
      rfl)
    trivial
    (fun k v tl _ _ => trivial)
  exact ⟨h.1, h.2.1⟩

/-- Claim C6, amended: `transformGeometry` does not throw for falsy (e.g.
`null`) geometries, for geometries whose first leaf is already valid WGS84,
or for object geometries whose coordinates nesting contains no
`null`/`undefined` node; an exception inside a candidate projection is
caught by `tryTransform` (modelled by `tt` returning `null`), so it never
propagates.  It does throw when the recursion reaches a `null`/`undefined`
coordinates value — e.g. a truthy geometry without a coordinates field
(see the counterexample). -/
theorem c6_transform_no_throw (tt : String → JVal → JVal) (g : JVal) :
    (truthy g = false → transformGeometry tt g = .ok .null) ∧
    (isWGS84 g = true → transformGeometry tt g = .ok g) ∧
    (∀ fs, g = .obj fs → coordsSafe (getField g "coordinates") = true →
      ∃ r, transformGeometry tt g = .ok r) := by
  refine ⟨fun h => by rw [transformGeometry, h]; rfl,
    fun h => c2_transform_passthrough_first_leaf tt g h, ?_⟩
  rintro fs rfl hsafe
  rcases hw : isWGS84 (.obj fs) with _ | _
  · rw [transformGeometry]
    rw [if_neg (by simp [truthy]), hw]
    obtain ⟨r, hr⟩ := (transformCoords_ok_of_safe tt).1 _ hsafe
    rw [hr]
    exact ⟨_, rfl⟩
  · exact ⟨_, c2_transform_passthrough_first_leaf tt _ hw⟩

/-- Claim C6 counterexample: a truthy geometry with a `type` but no
`coordinates` field makes `transformCoords(geometry.coordinates)` index
`undefined`, so `transformGeometry` throws a TypeError instead of never
throwing. -/
theorem c6_counterexample :
    transformGeometry (fun _ _ => .null) (jobj [("type", .str "Point")]) =
      .error () ∧
    transformGeometry (fun _ _ => .null)
        (jobj [("type", .str "Point"), ("coordinates", .null)]) =
      .error () := by decide

/-- Claim C6 witness: the no-throw cases at concrete inputs — a `null`
geometry, and an object geometry with a safe coordinates nesting. -/
theorem c6_witness :
    truthy .null = false ∧
    transformGeometry (fun _ _ => .null) .null = .ok .null ∧
    coordsSafe (getField (jobj [("type", .str "Point"), ("coordinates", jpt 1000 2000)]) "coordinates") = true ∧
    (∃ r, transformGeometry (fun _ _ => .null)
        (jobj [("type", .str "Point"), ("coordinates", jpt 1000 2000)]) = .ok r) :=
  ⟨by decide,
    (c6_transform_no_throw (fun _ _ => .null) .null).1 (by decide),
    by decide,
    (c6_transform_no_throw (fun _ _ => .null) _).2.2 _ rfl (by decide)⟩

/-! ## C3: the 3-feature import scenario -/

/-- The groundwater read loop counts exactly the per-record outcomes. -/
theorem gwLoop_eq_countP (tt : String → JVal → JVal) (area : Option BBox) :
    ∀ (l : List JVal) (i s : Nat),
      gwLoop tt area l i s =
        (i + l.countP (fun f => gwProcessRecord tt area f = GwOutcome.imported),
         s + l.countP (fun f => gwProcessRecord tt area f = GwOutcome.skipped)) := by
  intro l
  induction l with
  | nil => intro i s; simp [gwLoop]
  | cons f rest ih =>
    intro i s
    rw [gwLoop]
    rcases h : gwProcessRecord tt area f with _ | _ <;>
      simp [h, ih, List.countP_cons] <;> omega

/-- The per-file groundwater statistics are invariant under the processing
order of the features (as long as all features fit under the cap). -/
theorem gwImportStats_perm (tt : String → JVal → JVal) (area : Option BBox)
    (maxFeatures : Nat) (l1 l2 : List JVal) (hp : l1.Perm l2)
    (hlen : l1.length ≤ maxFeatures) :
    gwImportStats tt area maxFeatures l1 = gwImportStats tt area maxFeatures l2 := by
  rw [gwImportStats, gwImportStats,
    List.take_of_length_le hlen, List.take_of_length_le (hp.length_eq ▸ hlen),
    gwLoop_eq_countP, gwLoop_eq_countP,
    hp.countP_eq, hp.countP_eq]

/-- Feature A of the scenario: valid geometry, inside the area of
interest `[13, 47, 14, 48]`. -/
def gwFeatA : JVal :=
  mkGeom "Polygon" (jarr [jarr [jpt 13 47, jpt 14 47, jpt 14 48, jpt 13 47]])

/-- Feature B of the scenario: a malformed coordinate (NaN longitude). -/
def gwFeatB : JVal := mkGeom "Point" (jarr [.num .nan, jnum 47])

/-- Feature C of the scenario: valid geometry, outside the area of
interest. -/
def gwFeatC : JVal :=
  mkGeom "Polygon" (jarr [jarr [jpt 20 47, jpt 21 47, jpt 21 48, jpt 20 47]])

/-- The area of interest of the scenario. -/
def gwArea : Option BBox := some (13, 47, 14, 48)

/-- Claim C3 counterexample: importing the 3-feature source (A valid and
inside bounds, B malformed, C valid but outside bounds) yields 1 imported,
2 additions to the skipped counter — which `importGroundwaterAreasOptimized`
folds into the filtered-by-area counter — and 0 additions to the error
counter; not the claimed (1 imported, 1 error, 1 filtered): the malformed
feature is counted as skipped together with the out-of-region feature, and
`stats.errors` is only ever incremented by the top-level catch of
`importAllData`. -/
theorem c3_counterexample :
    gwImportStats (fun _ _ => .null) gwArea 50000 [gwFeatA, gwFeatB, gwFeatC] =
      ⟨1, 2, 0⟩ ∧
    gwImportStats (fun _ _ => .null) gwArea 50000 [gwFeatA, gwFeatB, gwFeatC] ≠
      ⟨1, 1, 1⟩ := by decide

/-- Claim C3, amended: in any processing order the 3-feature scenario
yields exactly 1 imported, 2 skipped (both the malformed feature and the
out-of-region feature land in the one `skipped` counter, which is added to
`stats.filteredOutByArea`), and 0 incremented errors (the per-layer
importers never touch `stats.errors`). -/
theorem c3_gw_scenario_counts (l : List JVal)
    (hp : l.Perm [gwFeatA, gwFeatB, gwFeatC]) :
    gwImportStats (fun _ _ => .null) gwArea 50000 l = ⟨1, 2, 0⟩ := by
  rw [gwImportStats_perm (fun _ _ => .null) gwArea 50000 l
    [gwFeatA, gwFeatB, gwFeatC] hp (by simp [hp.length_eq])]
  decide

/-- Claim C3 witness: the amended count at the in-order processing
sequence. -/
theorem c3_witness :
    gwImportStats (fun _ _ => .null) gwArea 50000 [gwFeatA, gwFeatB, gwFeatC] =
      ⟨1, 2, 0⟩ :=
  c3_gw_scenario_counts [gwFeatA, gwFeatB, gwFeatC] (List.Perm.refl _)

/-! ## C5: extractCoordinates and the gas point import -/

/-- Claim C5: `extractCoordinates` always returns a coordinate pair passing
the WGS84 validity check — when the first leaf coordinate is not valid
WGS84 it returns the constant `[13.5, 47.8]` — and hence the
`!isValidWGS84(coords)` guard of the gas-infrastructure point import never
rejects a record: invalid or untransformable point features are classified
as imported (or area-filtered), located at the constant pair. -/
theorem c5_extractCoordinates_always_valid (area : Option BBox) (g : JVal) :
    isValidWGS84 (extractCoordinates g) = true ∧
    gasPointRecord area g ≠ .rejectedInvalid ∧
    (isValidWGS84 (extractFirstCoordinate g) = false →
      extractCoordinates g = jarr [jnum (Rat.divInt 27 2), jnum (Rat.divInt 239 5)]) := by
  have hvalid : isValidWGS84 (extractCoordinates g) = true := by
    rw [extractCoordinates]
    rcases h : isValidWGS84 (extractFirstCoordinate g) with _ | _
    · simp only [h, Bool.false_eq_true, if_false]
      decide
    · simp [h]
  refine ⟨hvalid, ?_, fun h => by simp [extractCoordinates, h]⟩
  rw [gasPointRecord]
  simp only [hvalid]
  split
  · simp at *
  · split <;> simp

/-- Claim C5 witness: a `null` geometry (no coordinates at all) is given
the constant location and passes the validity guard. -/
theorem c5_witness :
    isValidWGS84 (extractFirstCoordinate .null) = false ∧
    extractCoordinates .null = jarr [jnum (Rat.divInt 27 2), jnum (Rat.divInt 239 5)] ∧
    isValidWGS84 (extractCoordinates .null) = true ∧
    gasPointRecord none .null ≠ .rejectedInvalid :=
  ⟨by decide,
    (c5_extractCoordinates_always_valid none .null).2.2 (by decide),
    (c5_extractCoordinates_always_valid none .null).1,
    (c5_extractCoordinates_always_valid none .null).2.1⟩

/-! ## C7: the area-of-interest filter -/

/-- Claim C7: `isWithinAreaBounds` is true iff the bounds are unset or the
point lies in the combined box with inclusive comparisons, and
`boundsIntersectArea` is true iff the bounds are unset, the bbox is unset,
or the two boxes are not disjoint (separating-axis test); with no boundary
source loaded (`none`) every check passes unconditionally. -/
theorem c7_area_filter_characterisation :
    (∀ lon lat : Rat, isWithinAreaBounds none lon lat = true) ∧
    (∀ bbox : Option BBox, boundsIntersectArea none bbox = true) ∧
    (∀ area : Option BBox, boundsIntersectArea area none = true) ∧
    (∀ aMinLon aMinLat aMaxLon aMaxLat lon lat : Rat,
      isWithinAreaBounds (some (aMinLon, aMinLat, aMaxLon, aMaxLat)) lon lat = true ↔
        (aMinLon ≤ lon ∧ lon ≤ aMaxLon ∧ aMinLat ≤ lat ∧ lat ≤ aMaxLat)) ∧
    (∀ aMinLon aMinLat aMaxLon aMaxLat bMinLon bMinLat bMaxLon bMaxLat : Rat,
      boundsIntersectArea (some (aMinLon, aMinLat, aMaxLon, aMaxLat))
          (some (bMinLon, bMinLat, bMaxLon, bMaxLat)) = true ↔
        ¬(bMaxLon < aMinLon ∨ bMinLon > aMaxLon ∨
          bMaxLat < aMinLat ∨ bMinLat > aMaxLat)) := by
  refine ⟨fun lon lat => rfl, ?_, ?_, ?_, ?_⟩
  · rintro (_ | b) <;> rfl
  · rintro (_ | a) <;> rfl
  · intro a1 a2 a3 a4 lon lat
    simp [isWithinAreaBounds, and_assoc]
  · intro a1 a2 a3 a4 b1 b2 b3 b4
    simp only [boundsIntersectArea, Bool.not_eq_true', Bool.or_eq_false_iff,
      decide_eq_false_iff_not, not_lt, not_or]
    constructor
    · rintro ⟨⟨⟨u1, u2⟩, u3⟩, u4⟩
      exact ⟨by linarith, by linarith, by linarith, by linarith⟩
    · rintro ⟨u1, u2, u3, u4⟩
      exact ⟨⟨⟨by linarith, by linarith⟩, by linarith⟩, by linarith⟩

/-- Claim C7 witness: concrete checks on both sides of the
characterisation. -/
theorem c7_witness :
    isWithinAreaBounds none 999 999 = true ∧
    boundsIntersectArea none none = true ∧
    (isWithinAreaBounds (some (13, 47, 14, 48)) 14 48 = true ↔
      ((13 : Rat) ≤ 14 ∧ (14 : Rat) ≤ 14 ∧ (47 : Rat) ≤ 48 ∧ (48 : Rat) ≤ 48)) ∧
    (boundsIntersectArea (some (13, 47, 14, 48)) (some (20, 47, 21, 48)) = true ↔
      ¬((21 : Rat) < 13 ∨ (20 : Rat) > 14 ∨ (48 : Rat) < 47 ∨ (47 : Rat) > 48)) :=
  ⟨c7_area_filter_characterisation.1 999 999,
    c7_area_filter_characterisation.2.1 none,
    c7_area_filter_characterisation.2.2.2.1 13 47 14 48 14 48,
    c7_area_filter_characterisation.2.2.2.2 13 47 14 48 20 47 21 48⟩

/-! ## C8: derived voting fields -/

/-- Claim C8: `left_green_combined` is the sum of the SPO, Gruene and KPO
percentages, `has_voting_data` is true iff some party percentage is
strictly positive, the stored color is neutral gray without voting data or
for a non-positive combined value, and a combined value in `[30, 40)` gets
the 30-39 bucket color `"#66DD66"`; concretely, (20, 10, 2, 30, 30, 8)
gives 32, true and `"#66DD66"`, and all-zero percentages give false and
`"#cccccc"`. -/
theorem c8_voting_derivation (p : PartyPercents) :
    leftGreenCombined p = p.spo + p.grune + p.kpo ∧
    (hasVotingData p = true ↔
      (0 < p.spo ∨ 0 < p.grune ∨ 0 < p.kpo ∨ 0 < p.ovp ∨ 0 < p.fpo ∨ 0 < p.neos)) ∧
    (hasVotingData p = false → choroplethColor p = "#cccccc") ∧
    (leftGreenCombined p ≤ 0 → choroplethColor p = "#cccccc") ∧
    (30 ≤ leftGreenCombined p → leftGreenCombined p < 40 →
      hasVotingData p = true → choroplethColor p = "#66DD66") ∧
    leftGreenCombined ⟨20, 10, 2, 30, 30, 8⟩ = 32 ∧
    hasVotingData ⟨20, 10, 2, 30, 30, 8⟩ = true ∧
    choroplethColor ⟨20, 10, 2, 30, 30, 8⟩ = "#66DD66" ∧
    hasVotingData ⟨0, 0, 0, 0, 0, 0⟩ = false ∧
    choroplethColor ⟨0, 0, 0, 0, 0, 0⟩ = "#cccccc" := by
  refine ⟨rfl, ?_, ?_, ?_, ?_,
    by norm_num [leftGreenCombined],
    by decide,
    by norm_num [choroplethColor, hasVotingData, leftGreenCombined, getVotingColor],
    by decide,
    by norm_num [choroplethColor, hasVotingData]⟩
  · simp only [hasVotingData, Bool.or_eq_true, decide_eq_true_eq]
    tauto
  · intro h
    simp [choroplethColor, h]
  · intro h
    rw [choroplethColor]
    split
    · rw [getVotingColor, if_pos h]
    · rfl
  · intro h30 h40 hdata
    rw [choroplethColor, if_pos hdata, getVotingColor]
    rw [if_neg (by linarith), if_neg (by linarith), if_neg (by linarith),
      if_neg (by linarith), if_pos h30]

/-- Claim C8 witness: the theorem instantiated at the two concrete
districts of the claim. -/
theorem c8_witness :
    choroplethColor ⟨20, 10, 2, 30, 30, 8⟩ = "#66DD66" ∧
    choroplethColor ⟨0, 0, 0, 0, 0, 0⟩ = "#cccccc" :=
  ⟨(c8_voting_derivation ⟨20, 10, 2, 30, 30, 8⟩).2.2.2.2.1
      (by norm_num [leftGreenCombined]) (by norm_num [leftGreenCombined]) (by decide),
    (c8_voting_derivation ⟨0, 0, 0, 0, 0, 0⟩).2.2.1 (by decide)⟩

/-! ## C10: CO2 prominence -/

/-- Claim C10: `is_prominent` is strictly `total_co2_t > 50000` (50001 is
prominent, exactly 50000 is not) and prominent sources get pin size 4
instead of 2. -/
theorem c10_prominence (t : Rat) :
    (isProminent t = true ↔ 50000 < t) ∧
    (isProminent t = true → pinSize t = 4) ∧
    (isProminent t = false → pinSize t = 2) ∧
    isProminent 50001 = true ∧
    isProminent 50000 = false ∧
    pinSize 50001 = 4 ∧
    pinSize 50000 = 2 := by
  refine ⟨?_, fun h => by simp [pinSize, h], fun h => by simp [pinSize, h],
    by decide, by decide, by decide, by decide⟩
  simp [isProminent]

/-- Claim C10 witness: the theorem instantiated at 50001 and 50000. -/
theorem c10_witness : pinSize 50001 = 4 ∧ pinSize 50000 = 2 :=
  ⟨(c10_prominence 50001).2.1 (by decide), (c10_prominence 50000).2.2.1 (by decide)⟩

/-! ## C9: the simplifier never grows a geometry -/

/-- `splitAtMax` returns `none` only on the empty list. -/
theorem splitAtMax_eq_none (f : Rat × Rat → Rat) (l : List (Rat × Rat)) :
    splitAtMax f l = none ↔ l = [] := by
  cases l with
  | nil => simp [splitAtMax]
  | cons p ps =>
    rw [splitAtMax]
    rcases h : splitAtMax f ps with _ | ⟨pre, q, post⟩ <;> simp
    split <;> simp

/-- Unfolding `splitAtMax` on a cons whose tail split is empty. -/
theorem splitAtMax_cons_none {f : Rat × Rat → Rat} {p : Rat × Rat}
    {ps : List (Rat × Rat)} (h : splitAtMax f ps = none) :
    splitAtMax f (p :: ps) = some ([], p, []) := by
  rw [splitAtMax, h]

/-- Unfolding `splitAtMax` on a cons whose tail split found a maximum. -/
theorem splitAtMax_cons_some {f : Rat × Rat → Rat} {p q2 : Rat × Rat}
    {ps pre2 post2 : List (Rat × Rat)}
    (h : splitAtMax f ps = some (pre2, q2, post2)) :
    splitAtMax f (p :: ps) =
      if f q2 < f p then some ([], p, ps) else some (p :: pre2, q2, post2) := by
  rw [splitAtMax, h]

/-- The three parts returned by `splitAtMax` reassemble the input list. -/
theorem splitAtMax_append (f : Rat × Rat → Rat) :
    ∀ (l pre : List (Rat × Rat)) (q : Rat × Rat) (post : List (Rat × Rat)),
      splitAtMax f l = some (pre, q, post) → l = pre ++ q :: post := by
  intro l
  induction l with
  | nil => intro pre q post h; simp [splitAtMax] at h
  | cons p ps ih =>
    intro pre q post h
    rcases h2 : splitAtMax f ps with _ | ⟨⟨pre2, q2, post2⟩⟩
    · rw [splitAtMax_cons_none h2] at h
      obtain rfl := (splitAtMax_eq_none f ps).mp h2
      simp only [Option.some.injEq, Prod.mk.injEq] at h
      obtain ⟨rfl, rfl, rfl⟩ := h
      rfl
    · rw [splitAtMax_cons_some h2] at h
      by_cases hf : f q2 < f p
      · rw [if_pos hf] at h
        simp only [Option.some.injEq, Prod.mk.injEq] at h
        obtain ⟨rfl, rfl, rfl⟩ := h
        rfl
      · rw [if_neg hf] at h
        simp only [Option.some.injEq, Prod.mk.injEq] at h
        obtain ⟨rfl, rfl, rfl⟩ := h
        have := ih _ _ _ h2
        rw [this]
        rfl

/-- Douglas-Peucker keeps at most the interior points it was given. -/
theorem dpRec_length (fuel : Nat) :
    ∀ (tol2 : Rat) (a b : Rat × Rat) (mid : List (Rat × Rat)),
      (dpRec fuel tol2 a b mid).length ≤ mid.length := by
  induction fuel with
  | zero => intro tol2 a b mid; simp [dpRec]
  | succ fuel ih =>
    intro tol2 a b mid
    rcases h : splitAtMax (fun p => sqSegDist p a b) mid with _ | ⟨⟨pre, q, post⟩⟩
    · simp [dpRec, h]
    · have hlen := congrArg List.length (splitAtMax_append _ mid pre q post h)
      simp only [List.length_append, List.length_cons] at hlen
      simp only [dpRec, h]
      split
      · have h1 := ih tol2 a q pre
        have h2 := ih tol2 q b post
        simp only [List.length_append, List.length_cons]
        omega
      · simp

/-- The simplified line never has more points than the input line. -/
theorem simplifyLine_length (tol : Rat) (pts : List (Rat × Rat)) :
    (simplifyLine tol pts).length ≤ pts.length := by
  match pts with
  | [] => simp [simplifyLine]
  | [p] => simp [simplifyLine]
  | a :: r1 :: rs =>
    rw [simplifyLine]
    have hdp := dpRec_length ((r1 :: rs).dropLast.length) (tol * tol) a
      ((r1 :: rs).getLastD r1) ((r1 :: rs).dropLast)
    have hdl : (r1 :: rs).dropLast.length = rs.length := by
      simp
    simp only [List.length_cons, List.length_append, List.length_nil]
    omega

/-- The per-line leaf count of `countCoords` (an empty line is itself one
leaf). -/
def lineCount (pts : List (Rat × Rat)) : Nat :=
  match pts with
  | [] => 1
  | _ => pts.length

/-- The per-ring-list leaf count. -/
def ringsCount (rs : List (List (Rat × Rat))) : Nat :=
  match rs with
  | [] => 1
  | _ => (rs.map lineCount).sum

/-- The per-polygon-list leaf count. -/
def polysCount (ps : List (List (List (Rat × Rat)))) : Nat :=
  match ps with
  | [] => 1
  | _ => (ps.map ringsCount).sum

/-- `lineCount` of a non-empty line is its length. -/
theorem lineCount_cons (a : Rat × Rat) (l : List (Rat × Rat)) :
    lineCount (a :: l) = l.length + 1 := rfl

/-- Simplification does not increase the per-line count. -/
theorem lineCount_simplifyLine (tol : Rat) (pts : List (Rat × Rat)) :
    lineCount (simplifyLine tol pts) ≤ lineCount pts := by
  match pts with
  | [] => simp [simplifyLine, lineCount]
  | [p] => simp [simplifyLine, lineCount]
  | a :: r1 :: rs =>
    have h := simplifyLine_length tol (a :: r1 :: rs)
    rw [simplifyLine] at h ⊢
    rw [lineCount_cons, lineCount_cons]
    simp only [List.length_cons, List.length_append, List.length_nil] at h ⊢
    omega

/-- `ringsCount` of a non-empty ring list is the sum of the line counts. -/
theorem ringsCount_cons (r : List (Rat × Rat)) (rest : List (List (Rat × Rat))) :
    ringsCount (r :: rest) = lineCount r + (rest.map lineCount).sum := rfl

/-- `polysCount` of a non-empty polygon list is the sum of the ring
counts. -/
theorem polysCount_cons (q : List (List (Rat × Rat)))
    (rest : List (List (List (Rat × Rat)))) :
    polysCount (q :: rest) = ringsCount q + (rest.map ringsCount).sum := rfl

/-- Simplification does not increase the per-ring-list count. -/
theorem ringsCount_simplify (tol : Rat) (rs : List (List (Rat × Rat))) :
    ringsCount (rs.map (simplifyLine tol)) ≤ ringsCount rs := by
  match rs with
  | [] => simp [ringsCount]
  | r :: rest =>
    rw [List.map_cons, ringsCount_cons, ringsCount_cons]
    have h1 := lineCount_simplifyLine tol r
    have h2 : ((rest.map (simplifyLine tol)).map lineCount).sum ≤
        (rest.map lineCount).sum := by
      rw [List.map_map]
      exact List.sum_le_sum (fun i _ => lineCount_simplifyLine tol i)
    omega

/-- Simplification does not increase the per-polygon-list count. -/
theorem polysCount_simplify (tol : Rat) (ps : List (List (List (Rat × Rat)))) :
    polysCount (ps.map (List.map (simplifyLine tol))) ≤ polysCount ps := by
  match ps with
  | [] => simp [polysCount]
  | q :: rest =>
    rw [List.map_cons, polysCount_cons, polysCount_cons]
    have h1 := ringsCount_simplify tol q
    have h2 : ((rest.map (List.map (simplifyLine tol))).map ringsCount).sum ≤
        (rest.map ringsCount).sum := by
      rw [List.map_map]
      exact List.sum_le_sum (fun i _ => ringsCount_simplify tol i)
    omega

/-- A successfully parsed leaf is exactly a two-rational pair. -/
theorem leafPt_eq {c : JVal} {p : Rat × Rat} (h : leafPt c = some p) :
    c = jpt p.1 p.2 := by
  unfold leafPt at h
  split at h
  · simp only [Option.some.injEq] at h
    subst h
    rfl
  · simp at h

/-- Parsing a line and rebuilding it is the identity. -/
theorem parseLine_unparse :
    ∀ (cs : JList) (pts : List (Rat × Rat)),
      parseLine cs = some pts → unparseLine pts = cs
  | .nil, pts, h => by
    rw [parseLine] at h
    simp only [Option.some.injEq] at h
    subst h
    rfl
  | .cons c tl, pts, h => by
    rw [parseLine] at h
    rcases hp : leafPt c with _ | p <;> rw [hp] at h
    · simp at h
    rcases hps : parseLine tl with _ | ps <;> rw [hps] at h
    · simp at h
    obtain rfl : p :: ps = pts := Option.some.inj h
    rw [unparseLine, parseLine_unparse tl ps hps, ← leafPt_eq hp]

/-- Parsing a ring list and rebuilding it is the identity. -/
theorem parseRings_unparse :
    ∀ (cs : JList) (rs : List (List (Rat × Rat))),
      parseRings cs = some rs → unparseRings rs = cs
  | .nil, rs, h => by
    rw [parseRings] at h
    simp only [Option.some.injEq] at h
    subst h
    rfl
  | .cons (.arr ys) tl, rs, h => by
    rw [parseRings] at h
    rcases hr : parseLine ys with _ | r <;> rw [hr] at h
    · simp at h
    rcases hrs : parseRings tl with _ | rest <;> rw [hrs] at h
    · simp at h
    obtain rfl : r :: rest = rs := Option.some.inj h
    rw [unparseRings, parseRings_unparse tl rest hrs, parseLine_unparse ys r hr]
  | .cons .null tl, rs, h => Option.noConfusion (show (none : Option _) = some rs from h)
  | .cons .undefined tl, rs, h => Option.noConfusion (show (none : Option _) = some rs from h)
  | .cons (.bool b) tl, rs, h => Option.noConfusion (show (none : Option _) = some rs from h)
  | .cons (.num n) tl, rs, h => Option.noConfusion (show (none : Option _) = some rs from h)
  | .cons (.str s2) tl, rs, h => Option.noConfusion (show (none : Option _) = some rs from h)
  | .cons (.obj fs) tl, rs, h => Option.noConfusion (show (none : Option _) = some rs from h)

/-- Parsing a polygon list and rebuilding it is the identity. -/
theorem parsePolys_unparse :
    ∀ (cs : JList) (ps : List (List (List (Rat × Rat)))),
      parsePolys cs = some ps → unparsePolys ps = cs
  | .nil, ps, h => by
    rw [parsePolys] at h
    simp only [Option.some.injEq] at h
    subst h
    rfl
  | .cons (.arr ys) tl, ps, h => by
    rw [parsePolys] at h
    rcases hq : parseRings ys with _ | q <;> rw [hq] at h
    · simp at h
    rcases hqs : parsePolys tl with _ | rest <;> rw [hqs] at h
    · simp at h
    obtain rfl : q :: rest = ps := Option.some.inj h
    rw [unparsePolys, parsePolys_unparse tl rest hqs, parseRings_unparse ys q hq]
  | .cons .null tl, ps, h => Option.noConfusion (show (none : Option _) = some ps from h)
  | .cons .undefined tl, ps, h => Option.noConfusion (show (none : Option _) = some ps from h)
  | .cons (.bool b) tl, ps, h => Option.noConfusion (show (none : Option _) = some ps from h)
  | .cons (.num n) tl, ps, h => Option.noConfusion (show (none : Option _) = some ps from h)
  | .cons (.str s2) tl, ps, h => Option.noConfusion (show (none : Option _) = some ps from h)
  | .cons (.obj fs) tl, ps, h => Option.noConfusion (show (none : Option _) = some ps from h)

/-- `countCoords` on a rebuilt line counts its points. -/
theorem countCoordsList_unparseLine (pts : List (Rat × Rat)) :
    countCoordsList (unparseLine pts) = .ok pts.length := by
  induction pts with
  | nil => rfl
  | cons p ps ih =>
    have h1 : countCoordsList (unparseLine (p :: ps)) =
        (countCoordsList (unparseLine ps)).bind (fun b => Except.ok (1 + b)) := rfl
    rw [h1, ih]
    simp [Except.bind, Nat.add_comm]

/-- `countCoords` of a rebuilt line array is the line count. -/
theorem countCoords_unparseLine (pts : List (Rat × Rat)) :
    countCoords (.arr (unparseLine pts)) = .ok (lineCount pts) := by
  match pts with
  | [] => rfl
  | p :: ps =>
    have h1 : countCoords (.arr (unparseLine (p :: ps))) =
        countCoordsList (unparseLine (p :: ps)) := rfl
    rw [h1, countCoordsList_unparseLine]
    rfl

/-- `countCoords` on a rebuilt ring list sums the line counts. -/
theorem countCoordsList_unparseRings (rs : List (List (Rat × Rat))) :
    countCoordsList (unparseRings rs) = .ok ((rs.map lineCount).sum) := by
  induction rs with
  | nil => rfl
  | cons r rest ih =>
    have h1 : countCoordsList (unparseRings (r :: rest)) =
        (countCoords (.arr (unparseLine r))).bind (fun a =>
          (countCoordsList (unparseRings rest)).bind (fun b => Except.ok (a + b))) := rfl
    rw [h1, countCoords_unparseLine, ih]
    rfl

/-- `countCoords` of a rebuilt ring-list array is the rings count. -/
theorem countCoords_unparseRings (rs : List (List (Rat × Rat))) :
    countCoords (.arr (unparseRings rs)) = .ok (ringsCount rs) := by
  match rs with
  | [] => rfl
  | r :: rest =>
    have h1 : countCoords (.arr (unparseRings (r :: rest))) =
        countCoordsList (unparseRings (r :: rest)) := rfl
    rw [h1, countCoordsList_unparseRings]
    rfl

/-- `countCoords` on a rebuilt polygon list sums the ring counts. -/
theorem countCoordsList_unparsePolys (ps : List (List (List (Rat × Rat)))) :
    countCoordsList (unparsePolys ps) = .ok ((ps.map ringsCount).sum) := by
  induction ps with
  | nil => rfl
  | cons q rest ih =>
    have h1 : countCoordsList (unparsePolys (q :: rest)) =
        (countCoords (.arr (unparseRings q))).bind (fun a =>
          (countCoordsList (unparsePolys rest)).bind (fun b => Except.ok (a + b))) := rfl
    rw [h1, countCoords_unparseRings, ih]
    rfl

/-- `countCoords` of a rebuilt polygon-list array is the polys count. -/
theorem countCoords_unparsePolys (ps : List (List (List (Rat × Rat)))) :
    countCoords (.arr (unparsePolys ps)) = .ok (polysCount ps) := by
  match ps with
  | [] => rfl
  | q :: rest =>
    have h1 : countCoords (.arr (unparsePolys (q :: rest))) =
        countCoordsList (unparsePolys (q :: rest)) := rfl
    rw [h1, countCoordsList_unparsePolys]
    rfl

/-- `getGeometryComplexity` of an object geometry counts its coordinates. -/
theorem getGeometryComplexity_obj (fs : JFields) :
    getGeometryComplexity (.obj fs) = countCoords (lookupField fs "coordinates") := rfl

/-- `getGeometryComplexity` of a rebuilt geometry counts the new
coordinates. -/
theorem getGeometryComplexity_mkGeom (t : String) (c : JVal) :
    getGeometryComplexity (mkGeom t c) = countCoords c := rfl

/-- A successful `turfSimplifyCoords` does not increase the leaf count. -/
theorem turfSimplifyCoords_complexity {tol : Rat} {t : String} {cs : JList}
    {g2 : JVal} (ht : turfSimplifyCoords tol t cs = .ok g2) (n : Nat)
    (hn : countCoords (.arr cs) = .ok n) :
    ∃ m, getGeometryComplexity g2 = .ok m ∧ m ≤ n := by
  rw [turfSimplifyCoords] at ht
  by_cases h1 : t = "LineString"
  · rw [if_pos h1] at ht
    rcases hp : parseLine cs with _ | pts <;> rw [hp] at ht
    · exact Except.noConfusion ht
    obtain rfl : mkGeom t (.arr (unparseLine (simplifyLine tol pts))) = g2 :=
      Except.ok.inj ht
    rw [← parseLine_unparse cs pts hp, countCoords_unparseLine] at hn
    obtain rfl : lineCount pts = n := Except.ok.inj hn
    exact ⟨lineCount (simplifyLine tol pts),
      by rw [getGeometryComplexity_mkGeom, countCoords_unparseLine],
      lineCount_simplifyLine tol pts⟩
  · rw [if_neg h1] at ht
    by_cases h2 : t = "MultiLineString" ∨ t = "Polygon"
    · rw [if_pos h2] at ht
      rcases hp : parseRings cs with _ | rs <;> rw [hp] at ht
      · exact Except.noConfusion ht
      obtain rfl : mkGeom t (.arr (unparseRings (rs.map (simplifyLine tol)))) = g2 :=
        Except.ok.inj ht
      rw [← parseRings_unparse cs rs hp, countCoords_unparseRings] at hn
      obtain rfl : ringsCount rs = n := Except.ok.inj hn
      exact ⟨ringsCount (rs.map (simplifyLine tol)),
        by rw [getGeometryComplexity_mkGeom, countCoords_unparseRings],
        ringsCount_simplify tol rs⟩
    · rw [if_neg h2] at ht
      by_cases h3 : t = "MultiPolygon"
      · rw [if_pos h3] at ht
        rcases hp : parsePolys cs with _ | ps <;> rw [hp] at ht
        · exact Except.noConfusion ht
        obtain rfl :
            mkGeom t (.arr (unparsePolys (ps.map (List.map (simplifyLine tol))))) = g2 :=
          Except.ok.inj ht
        rw [← parsePolys_unparse cs ps hp, countCoords_unparsePolys] at hn
        obtain rfl : polysCount ps = n := Except.ok.inj hn
        exact ⟨polysCount (ps.map (List.map (simplifyLine tol))),
          by rw [getGeometryComplexity_mkGeom, countCoords_unparsePolys],
          polysCount_simplify tol ps⟩
      · rw [if_neg h3] at ht
        exact Except.noConfusion ht

/-- A successful turf simplification does not increase the leaf count. -/
theorem turfSimplify_complexity {tol : Rat} {g g2 : JVal}
    (ht : turfSimplify tol g = .ok g2) (n : Nat)
    (hn : getGeometryComplexity g = .ok n) :
    ∃ m, getGeometryComplexity g2 = .ok m ∧ m ≤ n := by
  cases g with
  | obj fs =>
    rw [getGeometryComplexity_obj] at hn
    rcases htyp : lookupField fs "type" with _ | _ | b | nn | t | xs | fs2 <;>
      rw [turfSimplify, htyp] at ht <;> try exact Except.noConfusion ht
    have ht2 : turfSimplifyTyped tol fs t = .ok g2 := ht
    rw [turfSimplifyTyped] at ht2
    by_cases hpt : t = "Point" ∨ t = "MultiPoint"
    · rw [if_pos hpt] at ht2
      obtain rfl : JVal.obj fs = g2 := Except.ok.inj ht2
      exact ⟨n, by rw [getGeometryComplexity_obj]; exact hn, le_refl n⟩
    · rw [if_neg hpt] at ht2
      rcases hco : lookupField fs "coordinates" with _ | _ | b | nn | s2 | cs | fs2 <;>
        rw [hco] at ht2 <;> try exact Except.noConfusion ht2
      rw [hco] at hn
      exact turfSimplifyCoords_complexity ht2 n hn
  | null => exact Except.noConfusion ht
  | undefined => exact Except.noConfusion ht
  | bool b => exact Except.noConfusion ht
  | num nn => exact Except.noConfusion ht
  | str s2 => exact Except.noConfusion ht
  | arr xs => exact Except.noConfusion ht

/-- Claim C9: `simplifyGeometry` is a total function of its input (never
raises: every turf exception is caught); when the turf simplification
cannot process the geometry it returns the input unchanged; and whenever
the input has a defined vertex count above 1000 (the groundwater layer
threshold), the output vertex count is defined and not larger. -/
theorem c9_simplify_safety (g : JVal) (tol : Rat) :
    (∀ e, turfSimplify tol g = .error e → simplifyGeometry g tol = g) ∧
    (∀ n, getGeometryComplexity g = .ok n → 1000 < n →
      ∃ m, getGeometryComplexity (simplifyGeometry g tol) = .ok m ∧ m ≤ n) := by
  constructor
  · intro e he
    rw [simplifyGeometry, he]
  · intro n hn _
    rcases ht : turfSimplify tol g with e | g2
    · rw [simplifyGeometry, ht]
      exact ⟨n, hn, le_refl n⟩
    · rw [simplifyGeometry, ht]
      exact turfSimplify_complexity ht n hn

/-- A ring of 1001 distinct vertices. -/
def bigRing : List (Rat × Rat) := (List.range 1001).map (fun (i : Nat) => ((i : Rat), 0))

/-- A valid polygon with 1001 vertices (more than the 1000-vertex
simplification threshold of the groundwater importer). -/
def bigPoly : JVal := mkGeom "Polygon" (.arr (unparseRings [bigRing]))

/-- Claim C9 witness: the safety theorem applied to a polygon of 1001
vertices at the groundwater tolerance 0.001. -/
theorem c9_witness :
    getGeometryComplexity bigPoly = .ok 1001 ∧ 1000 < 1001 ∧
    (∃ m, getGeometryComplexity (simplifyGeometry bigPoly (Rat.divInt 1 1000)) = .ok m ∧
      m ≤ 1001) := by
  have hlen : bigRing.length = 1001 := by
    rw [bigRing, List.length_map, List.length_range]
  have hline : lineCount bigRing = 1001 := by
    rcases hb : bigRing with _ | ⟨a, l⟩
    · rw [hb] at hlen
      simp at hlen
    · rw [hb] at hlen
      rw [lineCount_cons]
      simp only [List.length_cons] at hlen
      omega
  have hcount : getGeometryComplexity bigPoly = .ok 1001 := by
    rw [bigPoly, getGeometryComplexity_mkGeom, countCoords_unparseRings,
      ringsCount_cons]
    simp [hline]
  exact ⟨hcount, by norm_num,
    (c9_simplify_safety bigPoly (Rat.divInt 1 1000)).2 1001 hcount (by norm_num)⟩

/-- Claim C4 witness: the characterisation applied to a concrete valid
point and a concrete NaN-leaf geometry. -/
theorem c4_witness :
    isValidGeoJSON (mkGeom "Point" (jpt 13 47)) = true ∧
    isValidGeoJSON (mkGeom "Point" (jarr [.num .nan, jnum 47])) = false :=
  ⟨(c4_isValidGeoJSON_iff (mkGeom "Point" (jpt 13 47))).mpr
      ⟨rfl, rfl, rfl, fun l hl => by
        have hl2 : l ∈ [jpt 13 47] := hl
        simp only [List.mem_singleton] at hl2
        exact ⟨13, 47, hl2⟩⟩,
    by
      rcases hv : isValidGeoJSON (mkGeom "Point" (jarr [.num .nan, jnum 47])) with _ | _
      · rfl
      · have := (c4_isValidGeoJSON_iff (mkGeom "Point" (jarr [.num .nan, jnum 47]))).mp hv
        obtain ⟨x, y, hxy⟩ := this.2.2.2 (jarr [.num .nan, jnum 47]) (by
          have : jarr [.num .nan, jnum 47] ∈ [jarr [.num .nan, jnum 47]] :=
            List.mem_singleton.mpr rfl
          exact this)
        simp [jarr, jpt, jnum, jl] at hxy⟩
